import Mathlib

/-!
# Verification of the smtpd SMTP server engine

Shallow embedding of the emailfabric/smtpd package (the latest revision in
the repository: the `session` command handlers with `split1`-based AUTH
dispatch, the `dotReader` transparency codec, and the `conn`/`Reply`
error-rendering helpers), together with theorems checking the
natural-language specification against it.

Bytes are modelled as `Nat`; the byte stream read from the wire is a
`List Nat`.  Go strings are modelled as Lean `String` (the engine only
compares ASCII data, so Go's Unicode case folding and `unicode.IsNumber`
are restricted to their ASCII behaviour).
-/

namespace Smtpd

/-! ## Transparency codec (reader.go, `dotReader`) -/

/-- Byte value of `'\n'`. -/
def lfB : Nat := 10

/-- Byte value of `'\r'`. -/
def crB : Nat := 13

/-- Byte value of `'.'`. -/
def dotB : Nat := 46

/-- `stateBeginLine`: beginning of line; initial state. -/
def stateBeginLine : Nat := 0

/-- `stateDot`: read `.` at beginning of line. -/
def stateDot : Nat := 1

/-- `stateDotCR`: read `.\r` at beginning of line. -/
def stateDotCR : Nat := 2

/-- `stateData`: reading data in middle of line. -/
def stateData : Nat := 3

/-- `stateEOF`: reached `.\r\n` end marker line. -/
def stateEOF : Nat := 4

/-- Shallow embedding of `dotReader.Read` (reader.go), iterated until the
reader stops: starting in state `st`, consume the input byte stream and
return the decoded output bytes together with the final outcome
(`true` = the `.\r\n` end marker was reached and `io.EOF` reported,
`false` = the stream ended first and `io.ErrUnexpectedEOF` reported).
The `stateDotCR` case on a byte other than `\n` follows the source:
the withheld `\r` is emitted and the byte is unread and then re-processed
in `stateData`; since that byte is not `\n` the re-processing emits it and
stays in `stateData`, which is inlined here to keep the recursion
structural. -/
def dotReaderRead : Nat → List Nat → List Nat × Bool
  | st, [] => ([], st == stateEOF)
  | st, c :: rest =>
    if st = stateEOF then ([], true)
    else if st = stateBeginLine then
      if c = dotB then dotReaderRead stateDot rest
      else if c = lfB then
        ((c :: (dotReaderRead stateBeginLine rest).1), (dotReaderRead stateBeginLine rest).2)
      else
        ((c :: (dotReaderRead stateData rest).1), (dotReaderRead stateData rest).2)
    else if st = stateDot then
      if c = crB then dotReaderRead stateDotCR rest
      else if c = lfB then ([], true)
      else
        ((c :: (dotReaderRead stateData rest).1), (dotReaderRead stateData rest).2)
    else if st = stateDotCR then
      if c = lfB then ([], true)
      else
        ((crB :: c :: (dotReaderRead stateData rest).1), (dotReaderRead stateData rest).2)
    else
      if c = lfB then
        ((c :: (dotReaderRead stateBeginLine rest).1), (dotReaderRead stateBeginLine rest).2)
      else
        ((c :: (dotReaderRead stateData rest).1), (dotReaderRead stateData rest).2)

/-- Decomposition performed by repeated `bufio.Reader.ReadSlice('\n')`
calls: the list of complete lines (each including its trailing `\n`) and
the trailing partial line left when the stream ends without a `\n`. -/
def toLines : List Nat → List (List Nat) × List Nat
  | [] => ([], [])
  | c :: rest =>
    if c = lfB then ([lfB] :: (toLines rest).1, (toLines rest).2)
    else
      match toLines rest with
      | ([], p) => ([], c :: p)
      | (l :: ls, p) => ((c :: l) :: ls, p)

/-- Line loop of `dotReader.WriteTo` (reader.go): process the complete
lines in order; a line whose first byte is `.` and second byte `\r` or
`\n` is the end marker (stop, report `io.EOF`, discard the rest); any
other line starting with `.` is written with the dot removed; other lines
are written unchanged.  When the lines run out, the trailing partial line
is written raw and `io.ErrUnexpectedEOF` reported, as in the `ReadSlice`
error branch of the source. -/
def writeToLines : List (List Nat) → List Nat → List Nat × Bool
  | [], p => (p, false)
  | (a :: b :: t) :: ls, p =>
    if a = dotB then
      if b = crB ∨ b = lfB then ([], true)
      else ((b :: t) ++ (writeToLines ls p).1, (writeToLines ls p).2)
    else ((a :: b :: t) ++ (writeToLines ls p).1, (writeToLines ls p).2)
  | l :: ls, p => (l ++ (writeToLines ls p).1, (writeToLines ls p).2)

/-- Shallow embedding of `dotReader.WriteTo` (reader.go): the bulk-copy
fast path.  Returns the bytes written and the outcome, with the same
encoding as `dotReaderRead`. -/
def dotReaderWriteTo (st : Nat) (input : List Nat) : List Nat × Bool :=
  if st = stateEOF then ([], true)
  else writeToLines (toLines input).1 (toLines input).2

example : dotReaderRead stateBeginLine [46, 46, 104, 13, 10, 46, 13, 10, 99] =
    ([46, 104, 13, 10], true) := by decide

example : dotReaderWriteTo stateBeginLine [46, 46, 104, 13, 10, 46, 13, 10, 99] =
    ([46, 104, 13, 10], true) := by decide

example : dotReaderRead stateBeginLine [46, 13, 88, 10] = ([13, 88, 10], false) := by decide

example : dotReaderWriteTo stateBeginLine [46, 13, 88, 10] = ([], true) := by decide

/-! ### Single-step rewriting lemmas for `dotReaderRead` -/

theorem read_begin_dot (rest : List Nat) :
    dotReaderRead stateBeginLine (dotB :: rest) = dotReaderRead stateDot rest := by
  simp [dotReaderRead, stateBeginLine, stateDot, stateEOF, dotB, lfB]

theorem read_begin_lf (rest : List Nat) :
    dotReaderRead stateBeginLine (lfB :: rest) =
      (lfB :: (dotReaderRead stateBeginLine rest).1, (dotReaderRead stateBeginLine rest).2) := by
  simp [dotReaderRead, stateBeginLine, stateEOF, dotB, lfB]

theorem read_begin_other (c : Nat) (rest : List Nat) (h1 : c ≠ dotB) (h2 : c ≠ lfB) :
    dotReaderRead stateBeginLine (c :: rest) =
      (c :: (dotReaderRead stateData rest).1, (dotReaderRead stateData rest).2) := by
  simp [dotReaderRead, stateBeginLine, stateEOF, stateDot, stateDotCR, stateData, h1, h2]

theorem read_dot_cr (rest : List Nat) :
    dotReaderRead stateDot (crB :: rest) = dotReaderRead stateDotCR rest := by
  simp [dotReaderRead, stateBeginLine, stateDot, stateDotCR, stateEOF, crB, lfB]

theorem read_dot_lf (rest : List Nat) :
    dotReaderRead stateDot (lfB :: rest) = ([], true) := by
  simp [dotReaderRead, stateBeginLine, stateDot, stateEOF, crB, lfB]

theorem read_dot_other (c : Nat) (rest : List Nat) (h1 : c ≠ crB) (h2 : c ≠ lfB) :
    dotReaderRead stateDot (c :: rest) =
      (c :: (dotReaderRead stateData rest).1, (dotReaderRead stateData rest).2) := by
  simp [dotReaderRead, stateBeginLine, stateEOF, stateDot, stateDotCR, stateData, h1, h2]

theorem read_dotcr_lf (rest : List Nat) :
    dotReaderRead stateDotCR (lfB :: rest) = ([], true) := by
  simp [dotReaderRead, stateBeginLine, stateDot, stateDotCR, stateEOF, lfB]

theorem read_dotcr_other (c : Nat) (rest : List Nat) (h : c ≠ lfB) :
    dotReaderRead stateDotCR (c :: rest) =
      (crB :: c :: (dotReaderRead stateData rest).1, (dotReaderRead stateData rest).2) := by
  simp [dotReaderRead, stateBeginLine, stateEOF, stateDot, stateDotCR, stateData, h]

theorem read_data_lf (rest : List Nat) :
    dotReaderRead stateData (lfB :: rest) =
      (lfB :: (dotReaderRead stateBeginLine rest).1, (dotReaderRead stateBeginLine rest).2) := by
  simp [dotReaderRead, stateBeginLine, stateEOF, stateDot, stateDotCR, stateData, lfB]

theorem read_data_other (c : Nat) (rest : List Nat) (h : c ≠ lfB) :
    dotReaderRead stateData (c :: rest) =
      (c :: (dotReaderRead stateData rest).1, (dotReaderRead stateData rest).2) := by
  simp [dotReaderRead, stateBeginLine, stateEOF, stateDot, stateDotCR, stateData, h]

/-! ### Line-level lemmas -/

/-- Mid-line data with no newline passes through unchanged and ends in the
unexpected-end-of-input condition. -/
theorem read_data_noLf (m : List Nat) (hm : lfB ∉ m) :
    dotReaderRead stateData m = (m, false) := by
  induction m with
  | nil => decide
  | cons a m ih =>
    rw [List.mem_cons, not_or] at hm
    rw [read_data_other a m (fun h => hm.1 h.symm), ih hm.2]

/-- Mid-line data passes through up to and including the newline, after
which decoding continues at beginning-of-line. -/
theorem read_data_pass (m R : List Nat) (hm : lfB ∉ m) :
    dotReaderRead stateData (m ++ lfB :: R) =
      ((m ++ [lfB]) ++ (dotReaderRead stateBeginLine R).1,
        (dotReaderRead stateBeginLine R).2) := by
  induction m with
  | nil => simp [read_data_lf]
  | cons a m ih =>
    rw [List.mem_cons, not_or] at hm
    rw [List.cons_append, read_data_other a _ (fun h => hm.1 h.symm), ih hm.2]
    simp

/-- A trailing partial line that does not begin with a dot is passed
through unchanged by the byte-wise path. -/
theorem read_begin_trailing (p : List Nat) (hp : lfB ∉ p) (hd : p.head? ≠ some dotB) :
    dotReaderRead stateBeginLine p = (p, false) := by
  cases p with
  | nil => decide
  | cons a p =>
    rw [List.mem_cons, not_or] at hp
    rw [read_begin_other a p (by simpa using hd) (fun h => hp.1 h.symm),
      read_data_noLf p hp.2]

/-! ### `ReadSlice` decomposition lemmas -/

/-- When the remaining input has no newline, `ReadSlice` yields no further
complete line, only the trailing partial line. -/
theorem toLines_noLf (p : List Nat) (hp : lfB ∉ p) : toLines p = ([], p) := by
  induction p with
  | nil => rfl
  | cons a p ih =>
    rw [List.mem_cons, not_or] at hp
    simp only [toLines]
    rw [if_neg (fun h => hp.1 h.symm), ih hp.2]

/-- `ReadSlice` cuts off exactly the first newline-terminated line. -/
theorem toLines_line (m R : List Nat) (hm : lfB ∉ m) :
    toLines (m ++ lfB :: R) = ((m ++ [lfB]) :: (toLines R).1, (toLines R).2) := by
  induction m with
  | nil => simp [toLines]
  | cons a m ih =>
    rw [List.mem_cons, not_or] at hm
    rw [List.cons_append]
    simp only [toLines]
    rw [if_neg (fun h => hm.1 h.symm), ih hm.2]
    rfl

/-! ### Well-formed streams -/

/-- A complete protocol line: some bytes without `\n`, ended by `\n`. -/
def goodLine (l : List Nat) : Prop := ∃ m, l = m ++ [lfB] ∧ lfB ∉ m

/-- A line that begins with `.\r` is exactly the end marker `.\r\n`.
Lines violating this are where the two decoding paths of the codec
disagree. -/
def markerSafe (l : List Nat) : Prop :=
  (∃ t, l = dotB :: crB :: t) → l = [dotB, crB, lfB]

/-! ### `writeToLines` rewriting lemmas -/

theorem wtl_marker (b : Nat) (t : List Nat) (ls : List (List Nat)) (p : List Nat)
    (hb : b = crB ∨ b = lfB) :
    writeToLines ((dotB :: b :: t) :: ls) p = ([], true) := by
  rcases hb with hb | hb <;> subst hb <;> simp [writeToLines]

theorem wtl_dot (b : Nat) (t : List Nat) (ls : List (List Nat)) (p : List Nat)
    (h1 : b ≠ crB) (h2 : b ≠ lfB) :
    writeToLines ((dotB :: b :: t) :: ls) p =
      ((b :: t) ++ (writeToLines ls p).1, (writeToLines ls p).2) := by
  simp [writeToLines, h1, h2]

theorem wtl_plain (a b : Nat) (t : List Nat) (ls : List (List Nat)) (p : List Nat)
    (ha : a ≠ dotB) :
    writeToLines ((a :: b :: t) :: ls) p =
      ((a :: b :: t) ++ (writeToLines ls p).1, (writeToLines ls p).2) := by
  simp [writeToLines, ha]

theorem wtl_single (x : Nat) (ls : List (List Nat)) (p : List Nat) :
    writeToLines ([x] :: ls) p = (x :: (writeToLines ls p).1, (writeToLines ls p).2) := rfl

/-- The second `writeToLines` equation for any nonempty line whose first
byte is not a dot. -/
theorem wtl_head_plain (a : Nat) (t : List Nat) (ls : List (List Nat)) (p : List Nat)
    (ha : a ≠ dotB) :
    writeToLines ((a :: t) :: ls) p =
      ((a :: t) ++ (writeToLines ls p).1, (writeToLines ls p).2) := by
  rcases t with _ | ⟨b, t2⟩
  · exact wtl_single a ls p
  · exact wtl_plain a b t2 ls p ha

theorem writeTo_begin (input : List Nat) :
    dotReaderWriteTo stateBeginLine input =
      writeToLines (toLines input).1 (toLines input).2 := by
  rw [dotReaderWriteTo, if_neg (by decide)]

/-! ### Claim C3: byte-wise path vs line-wise bulk-copy path -/

/-- C3 counterexample: on the stream `".\rX\n"` (a `.\r` not followed by
`\n`), the byte-at-a-time path emits `"\rX\n"` and reports
unexpected-end-of-input, while `WriteTo` treats the line as the end marker,
emits nothing and reports a clean end of body.  The two paths are therefore
not equivalent on every input byte stream. -/
theorem writeTo_read_divergence_cex :
    dotReaderRead stateBeginLine [46, 13, 88, 10] ≠
        dotReaderWriteTo stateBeginLine [46, 13, 88, 10] ∧
      dotReaderRead stateBeginLine [46, 13, 88, 10] = ([13, 88, 10], false) ∧
      dotReaderWriteTo stateBeginLine [46, 13, 88, 10] = ([], true) := by decide

/-- C3 (amended): for every input stream consisting of complete
newline-terminated lines in which any line beginning with `.\r` is exactly
the end-marker line `.\r\n`, optionally followed by a trailing partial
line that does not begin with a dot, the line-at-a-time bulk-copy path
(`WriteTo` from the initial state) produces exactly the same decoded
output bytes and the same end-of-body/error outcome as the byte-at-a-time
path (repeated `Read` until EOF). -/
theorem writeTo_read_agree (lines : List (List Nat)) (p : List Nat)
    (hl : ∀ l ∈ lines, goodLine l ∧ markerSafe l)
    (hp : lfB ∉ p) (hd : p.head? ≠ some dotB) :
    dotReaderRead stateBeginLine (lines.flatten ++ p) =
      dotReaderWriteTo stateBeginLine (lines.flatten ++ p) := by
  induction lines with
  | nil =>
    simp only [List.flatten_nil, List.nil_append]
    rw [read_begin_trailing p hp hd, writeTo_begin, toLines_noLf p hp]
    rfl
  | cons l ls ih =>
    obtain ⟨⟨m, hlm, hmn⟩, hms⟩ := hl l (by simp)
    have ih2 := ih (fun l2 h2 => hl l2 (by simp [h2]))
    subst hlm
    have harr : ((m ++ [lfB]) :: ls).flatten ++ p = m ++ lfB :: (ls.flatten ++ p) := by
      simp
    rw [harr, writeTo_begin, toLines_line m _ hmn]
    rw [writeTo_begin] at ih2
    rcases m with _ | ⟨a, m2⟩
    · rw [List.nil_append, read_begin_lf, List.nil_append, wtl_single, ih2]
    · by_cases hadot : a = dotB
      · subst hadot
        rcases m2 with _ | ⟨b, m3⟩
        · simp only [List.cons_append, List.nil_append]
          rw [read_begin_dot, read_dot_lf, wtl_marker lfB [] _ _ (Or.inr rfl)]
        · by_cases hbcr : b = crB
          · subst hbcr
            have hm3 : dotB :: crB :: (m3 ++ [lfB]) = [dotB, crB, lfB] := by
              apply hms
              exact ⟨m3 ++ [lfB], by simp⟩
            have hm3nil : m3 = [] := by
              have hlen := congrArg List.length hm3
              simp at hlen
              exact hlen
            subst hm3nil
            simp only [List.cons_append, List.nil_append]
            rw [read_begin_dot, read_dot_cr, read_dotcr_lf,
              wtl_marker crB _ _ _ (Or.inl rfl)]
          · have hblf : b ≠ lfB := fun h => hmn (by simp [h])
            have hm3lf : lfB ∉ m3 := fun h => hmn (by simp [h])
            simp only [List.cons_append]
            rw [read_begin_dot, read_dot_other b _ hbcr hblf,
              read_data_pass m3 _ hm3lf, wtl_dot b (m3 ++ [lfB]) _ _ hbcr hblf, ih2]
            simp
      · have half : a ≠ lfB := fun h => hmn (by simp [h])
        have hm2lf : lfB ∉ m2 := fun h => hmn (by simp [h])
        simp only [List.cons_append]
        rw [read_begin_other a _ hadot half, read_data_pass m2 _ hm2lf,
          wtl_head_plain a (m2 ++ [lfB]) _ _ hadot, ih2]
        simp

/-- C3 witness: the two paths agree on the two-line stream
`"h\n..\n"` followed by the partial line `"x"`. -/
theorem writeTo_read_agree_witness :
    dotReaderRead stateBeginLine (List.flatten [[104, 10], [46, 46, 10]] ++ [120]) =
      dotReaderWriteTo stateBeginLine (List.flatten [[104, 10], [46, 46, 10]] ++ [120]) :=
  writeTo_read_agree [[104, 10], [46, 46, 10]] [120]
    (by
      intro l hl
      simp only [List.mem_cons, List.mem_singleton, List.not_mem_nil, or_false] at hl
      rcases hl with h | h
      · subst h
        refine ⟨⟨[104], rfl, by decide⟩, ?_⟩
        rintro ⟨t, ht⟩
        simp [dotB, crB] at ht
      · subst h
        refine ⟨⟨[46, 46], rfl, by decide⟩, ?_⟩
        rintro ⟨t, ht⟩
        simp [dotB, crB] at ht)
    (by decide) (by decide)

/-! ### Claim C4: dot-stuffing round trip -/

/-- SMTP dot-stuffing of one line (from the claim): a line that starts
with a dot gets its leading dot doubled. -/
def stuff (l : List Nat) : List Nat :=
  if l.head? = some dotB then dotB :: l else l

/-- Encode a body (from the claim): dot-stuff every line and append the
terminator line `.\r\n`. -/
def encodeBody (body : List (List Nat)) : List Nat :=
  (body.map stuff).flatten ++ [dotB, crB, lfB]

/-- Decoding one stuffed CRLF-terminated line reproduces the line exactly
and continues at beginning-of-line. -/
theorem decode_stuffed_line (m R : List Nat) (hm : lfB ∉ m) :
    dotReaderRead stateBeginLine (stuff (m ++ [crB, lfB]) ++ R) =
      ((m ++ [crB, lfB]) ++ (dotReaderRead stateBeginLine R).1,
        (dotReaderRead stateBeginLine R).2) := by
  have hshape : m ++ [crB, lfB] ++ R = (m ++ [crB]) ++ lfB :: R := by simp
  have hmcr : lfB ∉ m ++ [crB] := by
    simp only [List.mem_append, List.mem_singleton]
    rintro (h | h)
    · exact hm h
    · exact absurd h (by decide)
  rcases m with _ | ⟨a, m2⟩
  · rw [stuff, if_neg (by decide)]
    simp only [List.nil_append, List.cons_append]
    rw [read_begin_other crB _ (by decide) (by decide), read_data_lf]
  · by_cases ha : a = dotB
    · subst ha
      have hm2cr : lfB ∉ m2 ++ [crB] := by
        simp only [List.mem_append, List.mem_singleton]
        rintro (h | h)
        · exact hm (by simp [h])
        · exact absurd h (by decide)
      have hshape2 : stuff ((dotB :: m2) ++ [crB, lfB]) ++ R =
          dotB :: dotB :: ((m2 ++ [crB]) ++ lfB :: R) := by
        rw [stuff, if_pos (by simp)]
        simp
      rw [hshape2, read_begin_dot, read_dot_other dotB _ (by decide) (by decide),
        read_data_pass (m2 ++ [crB]) R hm2cr]
      simp
    · have half : a ≠ lfB := fun h => hm (by simp [h])
      rw [stuff, if_neg (by simp [ha])]
      have hshape3 : (a :: m2) ++ [crB, lfB] ++ R = a :: ((m2 ++ [crB]) ++ lfB :: R) := by
        simp
      have hm2cr : lfB ∉ m2 ++ [crB] := by
        simp only [List.mem_append, List.mem_singleton]
        rintro (h | h)
        · exact hm (by simp [h])
        · exact absurd h (by decide)
      rw [hshape3, read_begin_other a _ ha half, read_data_pass (m2 ++ [crB]) R hm2cr]
      simp

/-- C4: for every message body made of CRLF-terminated lines,
dot-stuffing the body (doubling the leading dot of every line that starts
with a dot) and appending the terminator line `.\r\n`, then decoding
through the transparency codec, yields exactly the original body together
with a clean end-of-stream; decoding stops at the end-marker line and no
byte placed after it (`junk`) is ever returned to the reader. -/
theorem dot_stuffing_roundtrip (body : List (List Nat)) (junk : List Nat)
    (hb : ∀ l ∈ body, ∃ m, l = m ++ [crB, lfB] ∧ lfB ∉ m) :
    dotReaderRead stateBeginLine (encodeBody body ++ junk) = (body.flatten, true) := by
  induction body with
  | nil =>
    have hsh : encodeBody [] ++ junk = dotB :: crB :: lfB :: junk := by
      simp [encodeBody]
    rw [hsh, read_begin_dot, read_dot_cr, read_dotcr_lf]
    simp
  | cons l body ih =>
    obtain ⟨m, hlm, hmn⟩ := hb l (by simp)
    subst hlm
    have harr : encodeBody ((m ++ [crB, lfB]) :: body) ++ junk =
        stuff (m ++ [crB, lfB]) ++ (encodeBody body ++ junk) := by
      simp [encodeBody]
    rw [harr, decode_stuffed_line m _ hmn, ih (fun l2 h2 => hb l2 (by simp [h2]))]
    simp

/-- C4 witness: the single-line body `".h\r\n"` is encoded to
`"..h\r\n.\r\n"`, and decoding that (with trailing junk `"X"`) returns
exactly the original body and a clean end of stream. -/
theorem dot_stuffing_roundtrip_witness :
    dotReaderRead stateBeginLine (encodeBody [[46, 104, 13, 10]] ++ [88]) =
      (List.flatten [[46, 104, 13, 10]], true) :=
  dot_stuffing_roundtrip [[46, 104, 13, 10]] [88]
    (by
      intro l hl
      simp only [List.mem_singleton] at hl
      subst hl
      exact ⟨[46, 104], rfl, by decide⟩)

/-! ### Claim C5: the `Dot` state on an ordinary byte -/

/-- C5 counterexample: in state `Dot` on the byte `'a'` (97), the codec
emits only that byte — one byte of output, not the two bytes
`['.', 'a']` asserted by the claim.  The withheld dot is deleted: that is
exactly the dot-unstuffing. -/
theorem dot_state_step_cex :
    dotReaderRead stateDot [97] = ([97], false) ∧ ([97] : List Nat) ≠ [46, 97] := by
  decide

/-- C5 (amended): in the byte-wise codec, when the state is `Dot` and the
next input byte is neither `\r` nor `\n`, the codec transitions to `Data`
and emits only that byte; the withheld leading dot is deleted (this is the
unstuffing), so the step produces one byte of output, not the dot followed
by the byte. -/
theorem dot_state_step (c : Nat) (rest : List Nat) (h1 : c ≠ crB) (h2 : c ≠ lfB) :
    dotReaderRead stateDot (c :: rest) =
      (c :: (dotReaderRead stateData rest).1, (dotReaderRead stateData rest).2) := by
  simp [dotReaderRead, stateBeginLine, stateEOF, stateDot, stateDotCR, stateData, h1, h2]

/-- C5 witness: the amended step at the concrete byte 97 with empty rest. -/
theorem dot_state_step_witness :
    dotReaderRead stateDot [97] =
      (97 :: (dotReaderRead stateData []).1, (dotReaderRead stateData []).2) :=
  dot_state_step 97 [] (by decide) (by decide)

/-! ## Reply/error taxonomy (server.go `conn.ErrorReply`, reply.go) -/

/-- An application-hook error: its text, and whether it implements
`Temporary() bool` returning true. -/
structure SmtpErr where
  text : String
  temp : Bool
deriving DecidableEq, Repr

/-- `strings.IndexFunc(s, func(r) { return !unicode.IsNumber(r) })`, with
`unicode.IsNumber` restricted to ASCII digits (the engine compares ASCII
reply texts): the index of the first non-digit character, `-1` if every
character is a digit. -/
def indexNotDigit : List Char → Int
  | [] => -1
  | c :: rest =>
    if c.isDigit then
      if indexNotDigit rest = -1 then -1 else indexNotDigit rest + 1
    else 0

/-- `hasStatus` (reply.go): the text starts with exactly three digits
followed by at least one further character. -/
def hasStatus (s : String) : Bool := indexNotDigit s.data == 3

/-- `conn.ErrorReply` (server.go): the reply line written for an
application-hook error.  The `Temporary()` marking of the error is never
consulted on this path. -/
def connErrorReply (e : SmtpErr) : String :=
  if hasStatus e.text then e.text
  else "451 Requested action aborted: " ++ e.text

/-- `ErrorReply` (reply.go): converts an error to a `Reply`, consulting
`isTemporary`. -/
def replyErrorReply (e : SmtpErr) : String :=
  if hasStatus e.text then e.text
  else if e.temp then "400 " ++ e.text else "500 " ++ e.text

/-! ## Session state machine (server.go `session`) -/

/-- Static server configuration (`Server`): hostname, whether
`TLSConfig` is set, and the `Pipelining` flag. -/
structure ServerCfg where
  hostname : String
  tlsConfigured : Bool
  pipelining : Bool
deriving DecidableEq, Repr

/-- Mutable per-session state: the `tls`, `hasSender` and `hasRcpt`
fields of `session`. -/
structure SessState where
  tls : Bool
  hasSender : Bool
  hasRcpt : Bool
deriving DecidableEq, Repr

/-- Result of one command handler: the new session state, the reply lines
written, and whether the application hook for the command was invoked. -/
structure CmdOut where
  st : SessState
  replies : List String
  hookCalled : Bool
deriving DecidableEq, Repr

/-- `split1` (server.go): split at the first space. -/
def split1Chars : List Char → List Char × List Char
  | [] => ([], [])
  | c :: rest =>
    if c = ' ' then ([], rest)
    else (c :: (split1Chars rest).1, (split1Chars rest).2)

/-- `split1` on strings. -/
def split1 (s : String) : String × String :=
  ((split1Chars s.data).1.asString, (split1Chars s.data).2.asString)

/-- `strings.ToUpper` restricted to ASCII. -/
def goToUpper (s : String) : String := String.mk (s.data.map Char.toUpper)

/-- `strings.EqualFold` restricted to ASCII simple case folding. -/
def equalFold (s t : String) : Bool := goToUpper s == goToUpper t

/-- `session.mail` (server.go): the `senderErr` argument is the outcome of
the application's `Sender` hook when it is reached. -/
def mailCmd (s : SessState) (params : String) (senderErr : Option SmtpErr) : CmdOut :=
  if s.hasSender then ⟨s, ["503 Sender already given"], false⟩
  else if params.length < 5 || !equalFold (String.mk (params.data.take 5)) "FROM:" then
    ⟨s, ["501 Syntax: MAIL FROM:<address>"], false⟩
  else
    match senderErr with
    | some e => ⟨s, [connErrorReply e], true⟩
    | none => ⟨{ s with hasSender := true }, ["250 OK"], true⟩

/-- `session.rcpt` (server.go). -/
def rcptCmd (s : SessState) (params : String) (rcptErr : Option SmtpErr) : CmdOut :=
  if !s.hasSender then ⟨s, ["503 RCPT TO without MAIL FROM"], false⟩
  else if params.length < 3 || !equalFold (String.mk (params.data.take 3)) "TO:" then
    ⟨s, ["501 5.5.4 Syntax: RCPT TO:<address>"], false⟩
  else
    match rcptErr with
    | some e => ⟨s, [connErrorReply e], true⟩
    | none => ⟨{ s with hasRcpt := true }, ["250 OK"], true⟩

/-- `session.data` (server.go): `msgErr` is the outcome of the
application's `Message` hook.  Note that the source clears `hasSender` and
`hasRcpt` only on the success path; the error path returns right after
`ErrorReply`. -/
def dataCmd (s : SessState) (msgErr : Option SmtpErr) : CmdOut :=
  if !s.hasRcpt then ⟨s, ["503 DATA without RCPT TO"], false⟩
  else
    match msgErr with
    | some e => ⟨s, ["354 End data with <CR><LF>.<CR><LF>", connErrorReply e], true⟩
    | none => ⟨{ s with hasSender := false, hasRcpt := false },
        ["354 End data with <CR><LF>.<CR><LF>", "250 OK"], true⟩

/-- `session.rset` (server.go). -/
def rsetCmd (s : SessState) : CmdOut :=
  ⟨{ s with hasSender := false, hasRcpt := false }, ["250 OK"], false⟩

/-- `conn.MultiLineReply` (server.go): every argument but the last on a
`status-` line, the last on a `status ` line. -/
def multiLineReply (status : Nat) : List String → List String
  | [] => []
  | [a] => [toString status ++ " " ++ a]
  | a :: rest => (toString status ++ "-" ++ a) :: multiLineReply status rest

/-- Extension-line list built by `session.ehlo` (server.go). -/
def ehloArgs (cfg : ServerCfg) (tls : Bool) : List String :=
  let l1 := [cfg.hostname]
  let l2 := if cfg.tlsConfigured && !tls then l1 ++ ["STARTTLS"] else l1
  let l3 := if tls then l2 ++ ["AUTH PLAIN LOGIN"] else l2 ++ ["AUTH CRAM-MD5"]
  if cfg.pipelining then l3 ++ ["PIPELINING"] else l3

/-- `session.ehlo` (server.go). -/
def ehloCmd (cfg : ServerCfg) (s : SessState) (params : String)
    (helloErr : Option SmtpErr) : CmdOut :=
  if params = "" then ⟨s, ["501 Syntax: EHLO hostname"], false⟩
  else
    match helloErr with
    | some e => ⟨s, [connErrorReply e], true⟩
    | none => ⟨s, multiLineReply 250 (ehloArgs cfg s.tls), true⟩

/-- What `session.auth` (server.go) decides to do from the mechanism word
alone, before any credential exchange. -/
inductive AuthAction where
  | reply502 : String → AuthAction
  | plain : String → AuthAction
  | login : AuthAction
  | cramMD5 : AuthAction
deriving DecidableEq, Repr

/-- The mechanism dispatch of `session.auth` (server.go): `plain`,
`login` and `cramMD5` mean the corresponding credential sub-dialog is
entered; `reply502` means the command is refused with that reply line and
no credential exchange takes place. -/
def authDispatch (s : SessState) (params : String) : AuthAction :=
  if goToUpper (split1 params).1 = "PLAIN" then
    if s.tls = false then
      AuthAction.reply502 "502 AUTH PLAIN not allowed, use STARTTLS first"
    else AuthAction.plain (split1 params).2
  else if goToUpper (split1 params).1 = "LOGIN" then
    if s.tls = false then
      AuthAction.reply502 "502 AUTH LOGIN not allowed, use STARTTLS first"
    else AuthAction.login
  else if goToUpper (split1 params).1 = "CRAM-MD5" then AuthAction.cramMD5
  else AuthAction.reply502 "502 Unknown authentication mechanism"

/-- State effect of `session.starttls` (server.go): the flags are
untouched; `tls` becomes true when TLS is configured and not yet active. -/
def starttlsStep (cfg : ServerCfg) (s : SessState) : SessState :=
  if !cfg.tlsConfigured then s
  else if s.tls then s
  else { s with tls := true }

/-- One client command together with the outcome of the application hook
it may invoke. -/
inductive Cmd where
  | helo (params : String) (helloErr : Option SmtpErr)
  | ehlo (params : String) (helloErr : Option SmtpErr)
  | starttls
  | auth (params : String)
  | mail (params : String) (senderErr : Option SmtpErr)
  | rcpt (params : String) (rcptErr : Option SmtpErr)
  | data (msgErr : Option SmtpErr)
  | rset
  | quit
  | unknown (verb : String)

/-- Session-state effect of one iteration of the `ServeSMTP` command loop
(server.go).  `helo`, `ehlo`, the `auth` sub-dialogs, `quit` and
unrecognized commands never modify the state fields. -/
def stepSession (cfg : ServerCfg) (s : SessState) : Cmd → SessState
  | Cmd.helo _ _ => s
  | Cmd.ehlo _ _ => s
  | Cmd.starttls => starttlsStep cfg s
  | Cmd.auth _ => s
  | Cmd.mail p e => (mailCmd s p e).st
  | Cmd.rcpt p e => (rcptCmd s p e).st
  | Cmd.data e => (dataCmd s e).st
  | Cmd.rset => (rsetCmd s).st
  | Cmd.quit => s
  | Cmd.unknown _ => s

/-- The state `ServeSMTP` starts each session in. -/
def initialSession : SessState := ⟨false, false, false⟩

/-- Run a sequence of commands from a given state. -/
def runSession (cfg : ServerCfg) (s : SessState) : List Cmd → SessState
  | [] => s
  | c :: rest => runSession cfg (stepSession cfg s c) rest

example : (mailCmd initialSession "from:<a@b> SIZE=1" none).st.hasSender = true := by decide

example : authDispatch initialSession "cram-md5 x" = AuthAction.cramMD5 := by decide

example : connErrorReply ⟨"550 No", true⟩ = "550 No" := by decide

/-! ### Claim C1: transaction ordering in the dispatcher -/

/-- C1: in every session state, RCPT is rejected with the 503 reply, no
recipient hook call and no state change whenever `hasSender` is false;
DATA is rejected with the 503 reply whenever `hasRcpt` is false; and MAIL
is rejected with the 503 reply whenever `hasSender` is already true. -/
theorem dispatcher_transaction_ordering (s : SessState) (params : String)
    (e : Option SmtpErr) :
    (s.hasSender = false →
      rcptCmd s params e = ⟨s, ["503 RCPT TO without MAIL FROM"], false⟩) ∧
    (s.hasRcpt = false →
      dataCmd s e = ⟨s, ["503 DATA without RCPT TO"], false⟩) ∧
    (s.hasSender = true →
      mailCmd s params e = ⟨s, ["503 Sender already given"], false⟩) := by
  refine ⟨fun h => ?_, fun h => ?_, fun h => ?_⟩
  · simp [rcptCmd, h]
  · simp [dataCmd, h]
  · simp [mailCmd, h]

/-- C1 witness: the three rejections at concrete states and parameters. -/
theorem dispatcher_transaction_ordering_witness :
    rcptCmd initialSession "TO:<b@y>" none =
        ⟨initialSession, ["503 RCPT TO without MAIL FROM"], false⟩ ∧
      dataCmd initialSession none = ⟨initialSession, ["503 DATA without RCPT TO"], false⟩ ∧
      mailCmd ⟨false, true, false⟩ "FROM:<a@x>" none =
        ⟨⟨false, true, false⟩, ["503 Sender already given"], false⟩ :=
  ⟨(dispatcher_transaction_ordering initialSession "TO:<b@y>" none).1 rfl,
    (dispatcher_transaction_ordering initialSession "" none).2.1 rfl,
    (dispatcher_transaction_ordering ⟨false, true, false⟩ "FROM:<a@x>" none).2.2 rfl⟩

/-! ### Claim C2: end of transaction after DATA -/

/-- C2 counterexample: with a transaction open (`hasSender` and `hasRcpt`
both true), a DATA phase whose message hook fails leaves the session state
unchanged: `hasSender` and `hasRcpt` are still true when the error reply
has been issued, contradicting the claim that a failed DATA ends the
transaction like a successful one. -/
theorem data_failed_keeps_transaction_cex :
    (dataCmd ⟨false, true, true⟩ (some ⟨"boom", false⟩)).st = ⟨false, true, true⟩ ∧
      (dataCmd ⟨false, true, true⟩ (some ⟨"boom", false⟩)).st.hasSender = true ∧
      (dataCmd ⟨false, true, true⟩ (some ⟨"boom", false⟩)).st.hasRcpt = true := by decide

/-- C2 (amended): for every DATA phase that passes the `hasRcpt` guard,
if the message hook succeeds both `hasSender` and `hasRcpt` are false when
the final `250` reply is issued; but if the hook returns an error, the
error reply is issued with the session state unchanged — the transaction
is not ended, and only RSET or a later successful DATA clears it. -/
theorem data_transaction_reset (s : SessState) (e : SmtpErr) (h : s.hasRcpt = true) :
    (dataCmd s none).st.hasSender = false ∧ (dataCmd s none).st.hasRcpt = false ∧
      (dataCmd s (some e)).st = s := by
  simp [dataCmd, h]

/-- C2 witness: the amended behaviour at a concrete open transaction. -/
theorem data_transaction_reset_witness :
    (dataCmd ⟨false, true, true⟩ none).st.hasSender = false ∧
      (dataCmd ⟨false, true, true⟩ none).st.hasRcpt = false ∧
      (dataCmd ⟨false, true, true⟩ (some ⟨"x", false⟩)).st = ⟨false, true, true⟩ :=
  data_transaction_reset ⟨false, true, true⟩ ⟨"x", false⟩ rfl

/-! ### Claim C6: AUTH mechanism policy -/

/-- C6: if the first word of the AUTH parameters upper-cases to PLAIN or
LOGIN and the session is not encrypted, the command is refused with a 502
reply and no credential exchange takes place; CRAM-MD5 proceeds to its
challenge regardless of encryption; any other mechanism word is refused
with the 502 unknown-mechanism reply. -/
theorem auth_mechanism_policy (s : SessState) (params : String) :
    ((goToUpper (split1 params).1 = "PLAIN" ∨ goToUpper (split1 params).1 = "LOGIN") →
      s.tls = false →
      ∃ msg, authDispatch s params = AuthAction.reply502 msg ∧
        msg.data.take 3 = ['5', '0', '2']) ∧
    (goToUpper (split1 params).1 = "CRAM-MD5" →
      authDispatch s params = AuthAction.cramMD5) ∧
    (goToUpper (split1 params).1 ≠ "PLAIN" → goToUpper (split1 params).1 ≠ "LOGIN" →
      goToUpper (split1 params).1 ≠ "CRAM-MD5" →
      authDispatch s params = AuthAction.reply502 "502 Unknown authentication mechanism") := by
  refine ⟨?_, ?_, ?_⟩
  · rintro (h | h) htls
    · refine ⟨"502 AUTH PLAIN not allowed, use STARTTLS first", ?_, by decide⟩
      rw [authDispatch, if_pos h, if_pos htls]
    · refine ⟨"502 AUTH LOGIN not allowed, use STARTTLS first", ?_, by decide⟩
      rw [authDispatch, if_neg (by rw [h]; decide), if_pos h, if_pos htls]
  · intro h
    rw [authDispatch, if_neg (by rw [h]; decide), if_neg (by rw [h]; decide), if_pos h]
  · intro h1 h2 h3
    rw [authDispatch, if_neg h1, if_neg h2, if_neg h3]

/-- C6 witness: the three policy outcomes at concrete inputs (an
unencrypted PLAIN attempt, a lower-case CRAM-MD5 attempt, and an unknown
mechanism). -/
theorem auth_mechanism_policy_witness :
    (∃ msg, authDispatch initialSession "PLAIN dGVzdA==" = AuthAction.reply502 msg ∧
        msg.data.take 3 = ['5', '0', '2']) ∧
      authDispatch initialSession "cram-md5" = AuthAction.cramMD5 ∧
      authDispatch initialSession "GSSAPI" =
        AuthAction.reply502 "502 Unknown authentication mechanism" :=
  ⟨(auth_mechanism_policy initialSession "PLAIN dGVzdA==").1 (Or.inl (by decide)) rfl,
    (auth_mechanism_policy initialSession "cram-md5").2.1 (by decide),
    (auth_mechanism_policy initialSession "GSSAPI").2.2 (by decide) (by decide) (by decide)⟩

/-! ### Claim C7: rendering application-hook errors -/

/-- C7 counterexample: the hook error with text `"boom"`, not marked
temporary, is rendered by the hook-reply path as
`"451 Requested action aborted: boom"` — a 400-class transient reply, not
the 500-class wrapper the claim prescribes for non-temporary errors. -/
theorem hook_error_reply_cex :
    connErrorReply ⟨"boom", false⟩ = "451 Requested action aborted: boom" ∧
      (connErrorReply ⟨"boom", false⟩).data.take 1 ≠ ['5'] := by decide

/-- C7 (amended): on the hook-reply path (`conn.ErrorReply`), an error
text whose first non-digit character is at index three (three leading
digits followed by more text) is sent verbatim; every other error text is
wrapped as `451 Requested action aborted: <text>`, regardless of whether
the error is marked temporary.  (The `Temporary()`-sensitive 400/500
wrapping lives only in the separate `ErrorReply` conversion of reply.go,
which the command handlers do not use.) -/
theorem hook_error_reply_classification (e : SmtpErr) :
    (hasStatus e.text = true → connErrorReply e = e.text) ∧
    (hasStatus e.text = false →
      connErrorReply e = "451 Requested action aborted: " ++ e.text) ∧
    connErrorReply ⟨e.text, true⟩ = connErrorReply ⟨e.text, false⟩ := by
  refine ⟨fun h => ?_, fun h => ?_, rfl⟩
  · rw [connErrorReply, if_pos h]
  · rw [connErrorReply, if_neg (by simp [h])]

/-- C7 witness: a verbatim three-digit reply and a wrapped temporary
error. -/
theorem hook_error_reply_classification_witness :
    connErrorReply ⟨"550 Denied", false⟩ = "550 Denied" ∧
      connErrorReply ⟨"slow down", true⟩ = "451 Requested action aborted: " ++ "slow down" :=
  ⟨(hook_error_reply_classification ⟨"550 Denied", false⟩).1 (by decide),
    (hook_error_reply_classification ⟨"slow down", true⟩).2.1 (by decide)⟩

/-! ### Claim C9: EHLO extension lines -/

/-- C9: a successful EHLO with a non-empty argument replies with exactly
the hostname line first, then `STARTTLS` if and only if encryption is
configured and not yet active, then `AUTH PLAIN LOGIN` when the session is
encrypted and `AUTH CRAM-MD5` otherwise, then `PIPELINING` if and only if
pipelining is configured — in that fixed order, rendered through the
multi-line 250 reply. -/
theorem ehlo_reply_lines (cfg : ServerCfg) (s : SessState) (params : String)
    (h : params ≠ "") :
    (ehloCmd cfg s params none).replies =
      multiLineReply 250
        ([cfg.hostname] ++
          (if cfg.tlsConfigured = true ∧ s.tls = false then ["STARTTLS"] else []) ++
          (if s.tls = true then ["AUTH PLAIN LOGIN"] else ["AUTH CRAM-MD5"]) ++
          (if cfg.pipelining = true then ["PIPELINING"] else [])) := by
  cases htls : s.tls <;> cases hc : cfg.tlsConfigured <;> cases hp : cfg.pipelining <;>
    simp [ehloCmd, ehloArgs, h, htls, hc, hp]

/-- C9 witness: an encryption-capable, pipelining server before STARTTLS. -/
theorem ehlo_reply_lines_witness :
    (ehloCmd ⟨"mx.example", true, true⟩ initialSession "client.example" none).replies =
      multiLineReply 250
        (["mx.example"] ++
          (if (true : Bool) = true ∧ initialSession.tls = false then ["STARTTLS"] else []) ++
          (if initialSession.tls = true then ["AUTH PLAIN LOGIN"] else ["AUTH CRAM-MD5"]) ++
          (if (true : Bool) = true then ["PIPELINING"] else [])) :=
  ehlo_reply_lines ⟨"mx.example", true, true⟩ initialSession "client.example" (by decide)

/-! ### Claim C10: `hasRcpt` implies `hasSender` -/

/-- The invariant: an accepted recipient implies an accepted sender. -/
def sessInv (s : SessState) : Prop := s.hasRcpt = true → s.hasSender = true

theorem step_preserves_inv (cfg : ServerCfg) (s : SessState) (c : Cmd)
    (h : sessInv s) : sessInv (stepSession cfg s c) := by
  cases c with
  | helo p e => exact h
  | ehlo p e => exact h
  | starttls =>
    simp only [stepSession, starttlsStep]
    split_ifs <;> exact h
  | auth p => exact h
  | mail p e =>
    simp only [stepSession, mailCmd]
    split_ifs with h1 h2
    · exact h
    · exact h
    · rcases e with _ | e
      · intro _
        rfl
      · exact h
  | rcpt p e =>
    simp only [stepSession, rcptCmd]
    split_ifs with h1 h2
    · exact h
    · exact h
    · rcases e with _ | e
      · intro _
        simp only [Bool.not_eq_true] at h1
        simpa using h1
      · exact h
  | data e =>
    simp only [stepSession, dataCmd]
    split_ifs with h1
    · exact h
    · rcases e with _ | e
      · intro hr
        simp at hr
      · exact h
  | rset =>
    intro hr
    simp [rsetCmd, stepSession] at hr
  | quit => exact h
  | unknown v => exact h

/-- The invariant is preserved by whole command sequences. -/
theorem runSession_inv (cfg : ServerCfg) (cmds : List Cmd) :
    ∀ s : SessState, sessInv s → sessInv (runSession cfg s cmds) := by
  induction cmds with
  | nil => exact fun s hs => hs
  | cons c rest ih => exact fun s hs => ih (stepSession cfg s c) (step_preserves_inv cfg s c hs)

/-- C10: in every session state reachable by any command sequence from
the initial state, `hasRcpt = true` implies `hasSender = true`: no handler
ever produces a state with an accepted recipient but no accepted sender. -/
theorem rcpt_implies_sender (cfg : ServerCfg) (cmds : List Cmd)
    (h : (runSession cfg initialSession cmds).hasRcpt = true) :
    (runSession cfg initialSession cmds).hasSender = true :=
  runSession_inv cfg cmds initialSession (fun hr => absurd hr (by decide)) h

/-- C10 witness: after an accepted MAIL and an accepted RCPT, `hasRcpt`
holds and so does `hasSender`. -/
theorem rcpt_implies_sender_witness :
    (runSession ⟨"h", false, false⟩ initialSession
        [Cmd.mail "FROM:<a@x>" none, Cmd.rcpt "TO:<b@y>" none]).hasSender = true :=
  rcpt_implies_sender ⟨"h", false, false⟩
    [Cmd.mail "FROM:<a@x>" none, Cmd.rcpt "TO:<b@y>" none] (by decide)

/-! ## Address extraction (server.go `address` with regexp ` ?<?([^>\s]+)`)

The Go regexp engine finds the leftmost match, resolving alternatives the
way a backtracking search from the start of the pattern would: the
optional space and optional `<` each prefer to consume a character, and
the group `([^>\s]+)` is greedy. -/

/-- The RE2 character class `\s`, i.e. `[\t\n\f\r ]`. -/
def isSpaceRE (c : Char) : Bool :=
  c = ' ' || c = '\t' || c = '\n' || c = '\x0c' || c = '\r'

/-- A character matched by `[^>\s]`. -/
def runChar (c : Char) : Bool := !(c = '>') && !isSpaceRE c

/-- The greedy group `([^>\s]+)` takes the maximal run of `[^>\s]`
characters at the current position. -/
def takeRun (l : List Char) : List Char := l.takeWhile runChar

/-- The sub-pattern `<?([^>\s]+)` at the current position: consuming `<`
is preferred; if the group cannot match after the `<`, the engine
backtracks and the `<` itself may be captured by the group (it is a
`[^>\s]` character). -/
def subMatch (l : List Char) : Option (List Char) :=
  match l with
  | c :: l3 =>
    if c = '<' then
      if (takeRun l3).isEmpty then
        if (takeRun (c :: l3)).isEmpty then none else some (takeRun (c :: l3))
      else some (takeRun l3)
    else if (takeRun (c :: l3)).isEmpty then none else some (takeRun (c :: l3))
  | [] => none

/-- The pattern ` ?<?([^>\s]+)` anchored at the current position. -/
def tryMatch (l : List Char) : Option (List Char) :=
  match l with
  | c :: l1 =>
    if c = ' ' then
      match subMatch l1 with
      | some g => some g
      | none => subMatch (c :: l1)
    else subMatch (c :: l1)
  | [] => subMatch []

/-- `FindStringSubmatch`: scan positions left to right for the first
match. -/
def findMatch : List Char → Option (List Char)
  | [] => none
  | c :: rest =>
    match tryMatch (c :: rest) with
    | some g => some g
    | none => findMatch rest

/-- `address` (server.go): the captured group of the leftmost match of
` ?<?([^>\s]+)`, or the empty string when nothing matches. -/
def address (param : String) : String :=
  match findMatch param.data with
  | some g => String.mk g
  | none => ""

example : address " <bad" = "bad" := by decide

example : address "<>" = "<" := by decide

example : address "a@b c" = "a@b" := by decide

example : address "<a@b> x" = "a@b" := by decide

example : address " >> " = "" := by decide

/-! ### `takeRun` lemmas -/

theorem takeRun_cons_false (c : Char) (l : List Char) (h : runChar c = false) :
    takeRun (c :: l) = [] := by
  simp [takeRun, List.takeWhile_cons, h]

theorem takeRun_all (tok : List Char) (h : ∀ c ∈ tok, runChar c = true) :
    takeRun tok = tok := by
  induction tok with
  | nil => rfl
  | cons a t ih =>
    have ha := h a (by simp)
    simp only [takeRun, List.takeWhile_cons, ha, if_true]
    exact congrArg (a :: ·) (ih fun c hc => h c (by simp [hc]))

theorem takeRun_stop (tok : List Char) (x : Char) (rest : List Char)
    (ht : ∀ c ∈ tok, runChar c = true) (hx : runChar x = false) :
    takeRun (tok ++ x :: rest) = tok := by
  induction tok with
  | nil => simpa using takeRun_cons_false x rest hx
  | cons a t ih =>
    have ha := ht a (by simp)
    simp only [List.cons_append, takeRun, List.takeWhile_cons, ha, if_true]
    exact congrArg (a :: ·) (ih fun c hc => ht c (by simp [hc]))

/-! ### Rewriting lemmas for the matcher -/

theorem tryMatch_not_space (c : Char) (l1 : List Char) (h : ¬c = ' ') :
    tryMatch (c :: l1) = subMatch (c :: l1) := by
  simp only [tryMatch]
  rw [if_neg h]

theorem tryMatch_space (l1 : List Char) :
    tryMatch (' ' :: l1) =
      match subMatch l1 with
      | some g => some g
      | none => subMatch (' ' :: l1) := by
  simp only [tryMatch]
  rw [if_pos trivial]

theorem subMatch_lt_run (l3 : List Char) (h : (takeRun l3).isEmpty = false) :
    subMatch ('<' :: l3) = some (takeRun l3) := by
  simp only [subMatch]
  rw [if_pos trivial, if_neg (by simp [h])]

theorem subMatch_not_lt (c : Char) (l3 : List Char) (hne : ¬c = '<')
    (h : (takeRun (c :: l3)).isEmpty = false) :
    subMatch (c :: l3) = some (takeRun (c :: l3)) := by
  simp only [subMatch]
  rw [if_neg hne, if_neg (by simp [h])]

theorem subMatch_none (c : Char) (l3 : List Char) (hne : ¬c = '<')
    (h : (takeRun (c :: l3)).isEmpty = true) :
    subMatch (c :: l3) = none := by
  simp only [subMatch]
  rw [if_neg hne, if_pos h]

theorem findMatch_cons (c : Char) (rest : List Char) :
    findMatch (c :: rest) =
      match tryMatch (c :: rest) with
      | some g => some g
      | none => findMatch rest := rfl

theorem address_mk (l : List Char) :
    address (String.mk l) =
      match findMatch l with
      | some g => String.mk g
      | none => "" := rfl

/-! ### Claim C8: address extraction -/

/-- C8 counterexample: on the bracketed-empty remainder `"<>"` (the bounce
null sender `MAIL FROM:<>`), the extractor does not return the empty
string: the regexp backtracks over the optional `<`, the group `([^>\s]+)`
matches the `<` character itself, and the extracted address is `"<"`. -/
theorem address_extract_cex :
    address "<>" = "<" ∧ ("<" : String) ≠ "" := by decide

/-- C8 (amended): the extractor returns, at the leftmost position where
the pattern matches, the maximal nonempty run of characters other than
`>` and whitespace found after an optional single space and an optional
`<`.  Hence a `<`-bracketed token (optionally preceded by one space) is
returned without the brackets; a bare token not starting with `<` is
returned whole; the remainder `" <bad"` still extracts `"bad"`;
but the bracketed-empty remainder `"<>"` extracts `"<"` — not the empty
string — and the empty string is returned exactly when no run of
non-`>`, non-whitespace characters exists in the remainder. -/
theorem address_extraction :
    (∀ (tok rest : List Char), tok ≠ [] → (∀ c ∈ tok, runChar c = true) →
      address (String.mk ('<' :: tok ++ '>' :: rest)) = String.mk tok ∧
      address (String.mk (' ' :: '<' :: tok ++ '>' :: rest)) = String.mk tok) ∧
    (∀ tok : List Char, tok ≠ [] → (∀ c ∈ tok, runChar c = true) →
      tok.head? ≠ some '<' → address (String.mk tok) = String.mk tok) ∧
    (∀ s : String, (∀ c ∈ s.data, runChar c = false) → address s = "") ∧
    (address " <bad" = "bad" ∧ address "<>" = "<" ∧ address "" = "") := by
  have hgt : runChar '>' = false := by decide
  refine ⟨?_, ?_, ?_, by decide, by decide, by decide⟩
  · intro tok rest htok hrun
    rcases tok with _ | ⟨a, t⟩
    · exact absurd rfl htok
    have hr : takeRun ((a :: t) ++ '>' :: rest) = a :: t := takeRun_stop _ _ _ hrun hgt
    have hsub : subMatch ('<' :: ((a :: t) ++ '>' :: rest)) = some (a :: t) := by
      rw [subMatch_lt_run _ (by rw [hr]; rfl), hr]
    constructor
    · have hm : findMatch ('<' :: ((a :: t) ++ '>' :: rest)) = some (a :: t) := by
        rw [findMatch_cons, tryMatch_not_space _ _ (by decide), hsub]
      show address (String.mk ('<' :: ((a :: t) ++ '>' :: rest))) = String.mk (a :: t)
      rw [address_mk, hm]
    · have hm : findMatch (' ' :: '<' :: ((a :: t) ++ '>' :: rest)) = some (a :: t) := by
        rw [findMatch_cons, tryMatch_space, hsub]
      show address (String.mk (' ' :: '<' :: ((a :: t) ++ '>' :: rest))) = String.mk (a :: t)
      rw [address_mk, hm]
  · intro tok htok hrun hhead
    rcases tok with _ | ⟨a, t⟩
    · exact absurd rfl htok
    have ha := hrun a (by simp)
    have hsp : ¬a = ' ' := by
      intro h
      subst h
      exact absurd ha (by decide)
    have hne : ¬a = '<' := by
      intro h
      subst h
      exact hhead rfl
    have hr : takeRun (a :: t) = a :: t := takeRun_all _ hrun
    have hm : findMatch (a :: t) = some (a :: t) := by
      rw [findMatch_cons, tryMatch_not_space _ _ hsp,
        subMatch_not_lt _ _ hne (by rw [hr]; rfl), hr]
    rw [address_mk, hm]
  · intro s hs
    suffices hfm : ∀ l : List Char, (∀ c ∈ l, runChar c = false) → findMatch l = none by
      have hsd : address (String.mk s.data) = "" := by rw [address_mk, hfm s.data hs]
      exact hsd
    intro l
    induction l with
    | nil => exact fun _ => rfl
    | cons c rest ih =>
      intro hl
      have hc := hl c (by simp)
      have hrest : ∀ x ∈ rest, runChar x = false := fun x hx => hl x (by simp [hx])
      have hcne : ¬c = '<' := by
        intro h
        subst h
        exact absurd hc (by decide)
      have hsub : subMatch (c :: rest) = none :=
        subMatch_none c rest hcne (by rw [takeRun_cons_false c rest hc]; rfl)
      have hsub2 : subMatch rest = none := by
        rcases rest with _ | ⟨b, r⟩
        · rfl
        have hb := hrest b (by simp)
        have hbne : ¬b = '<' := by
          intro h
          subst h
          exact absurd hb (by decide)
        exact subMatch_none b r hbne (by rw [takeRun_cons_false b r hb]; rfl)
      rw [findMatch_cons]
      by_cases hcs : c = ' '
      · subst hcs
        rw [tryMatch_space, hsub2, hsub]
        exact ih hrest
      · rw [tryMatch_not_space _ _ hcs, hsub]
        exact ih hrest

/-- C8 witness: a bracketed token, a bare token, and a remainder with no
extractable run. -/
theorem address_extraction_witness :
    address (String.mk ('<' :: ['b', 'a', 'd'] ++ '>' :: [])) = String.mk ['b', 'a', 'd'] ∧
      address (String.mk ['x', 'y']) = String.mk ['x', 'y'] ∧
      address "  " = "" :=
  ⟨(address_extraction.1 ['b', 'a', 'd'] [] (by decide) (by decide)).1,
    address_extraction.2.1 ['x', 'y'] (by decide) (by decide) (by decide),
    address_extraction.2.2.1 "  " (by decide)⟩

end Smtpd
